import Mathlib

/-!
Verification of the `neur` static site generator against its specification.

The embedding models the current revision of the code (`src/config.rs`,
`src/main.rs`, `src/generator.rs`).  Filesystem paths are modelled as lists of
path components (as produced by Rust `Path::components()`); file contents are
strings; the external collaborators (lightningcss, tera, comrak,
markdown_frontmatter, minify_html) are abstracted as an `Env` of functions,
exactly at the call boundaries used by the code.  Filesystem effects are
recorded as a trace of `FsAction`s; fallible operations return `Except`.
-/

namespace Neur

/-- A loosely typed front-matter value (models `toml::Value` / tera values
at the granularity the pipeline observes). -/
inductive Value where
  | str : String → Value
  | int : Int → Value
  | boolean : Bool → Value
deriving DecidableEq

/-- The tera rendering context.  `tera::Context` is a map from string keys to
values; `try_insert` overwrites an existing binding.  We model it as an
association list where insertion conses and lookup takes the first (most
recent) binding, which is observationally the same map. -/
def Ctx := List (String × Value)
deriving DecidableEq

/-- The empty context (`Context::new()`). -/
def Ctx.empty : Ctx := []

/-- Models `Context::try_insert` (serialization never fails on our `Value`s):
overwrite semantics via cons + first-match lookup. -/
def Ctx.insert (c : Ctx) (k : String) (v : Value) : Ctx := (k, v) :: c

/-- Look up a key in the context: the most recently inserted binding wins,
as in the underlying map. -/
def Ctx.lookup : Ctx → String → Option Value
  | [], _ => none
  | (k, v) :: rest, key => if key = k then some v else Ctx.lookup rest key

/-! ### Paths

A path is a list of components.  `pathStr` re-joins components as
`Path::to_str` does for relative paths built from normal components. -/

/-- Join path components with `/` (`Path::to_str` on normal components). -/
def pathStr (p : List String) : String := String.intercalate "/" p

/-- The final component of a path (`Path::file_name`, total on the nonempty
paths the walker produces). -/
def filenameOf (p : List String) : String := p.getLastD ""

/-- Rust `str::starts_with` on strings, as a character-level prefix test. -/
def strStartsWith (s pre : String) : Bool := pre.toList.isPrefixOf s.toList

/-- Split a character list at its LAST dot: `dotSplit l = some (s, e)` with
`l = s ++ '.' :: e` and `e` dot-free suffix after the last dot. -/
def dotSplit : List Char → Option (List Char × List Char)
  | [] => none
  | c :: cs =>
    match dotSplit cs with
    | some (s, e) => some (c :: s, e)
    | none => if c = '.' then some ([], cs) else none

/-- Rust `split_file_at_dot`: the stem and extension of a file name.  A name
of `..`, an extensionless name, or a dotfile such as `.gitignore` (leading
dot ignored when searching) has no extension. -/
def splitFileAtDot (name : String) : String × Option String :=
  if name = ".." then (name, none)
  else
    match name.toList with
    | [] => (name, none)
    | c :: rest =>
      match dotSplit rest with
      | none => (name, none)
      | some (s, e) => (String.mk (c :: s), some (String.mk e))

/-- Rust `Path::extension` restricted to the file name. -/
def extensionOfName (name : String) : Option String := (splitFileAtDot name).2

/-- Rust `Path::file_stem` restricted to the file name. -/
def stemOfName (name : String) : String := (splitFileAtDot name).1

/-- Rust `Path::extension()` on a component path: the extension of the final
component. -/
def pathExtension (p : List String) : Option String := extensionOfName (filenameOf p)

/-- Rust `PathBuf::with_extension e` (for nonempty `e`, as used with
`"html"`): replace the final component by its stem plus `.e`. -/
def withExtension (p : List String) (e : String) : List String :=
  match p with
  | [] => []
  | _ :: _ => p.dropLast ++ [stemOfName (filenameOf p) ++ "." ++ e]

/-! ### Configuration (`src/config.rs`) -/

/-- The validated configuration. -/
structure Config where
  source : List String
  output : List String
  minify : Bool
deriving DecidableEq

/-- Configuration errors (`ConfigError`); payloads are rendered messages. -/
inductive ConfigError where
  | parseErr : String → ConfigError
  | ioErr : String → ConfigError
  | validationErr : String → ConfigError
deriving DecidableEq

/-- The layered option set (`Options`).  `minify` is the TOML-fed field
(clap skips it); `minifyCli` is the CLI-only `--minify` flag with optional
value (`_minify_cli`); the `config` path option only selects which TOML file
to read and is modelled by the `tomlOpts` argument of `resolveOptions`. -/
structure Options where
  source : Option (List String)
  output : Option (List String)
  minify : Option Bool
  minifyCli : Option (Option Bool)
deriving DecidableEq

/-- Models `Options::merge` (`self` = CLI options, `rhs` = TOML options):
`self.minify = self._minify_cli.map(|o| o.unwrap_or(true)).or(rhs.minify)`. -/
def Options.merge (self rhs : Options) : Options :=
  { self with
    source := self.source.or rhs.source
    output := self.output.or rhs.output
    minify := (self.minifyCli.map (fun o => o.getD true)).or rhs.minify }

/-- Models `TryFrom<Options> for Config`: apply defaults (`src`, `dist`, `false`)
then reject nesting either way (`Path::starts_with` is component-prefix and
also holds on equality). -/
def tryFromOptions (opts : Options) : Except ConfigError Config :=
  let cfg : Config :=
    { source := opts.source.getD ["src"]
      output := opts.output.getD ["dist"]
      minify := opts.minify.getD false }
  if cfg.source.isPrefixOf cfg.output then
    .error (.validationErr "Output directory cannot be under source directory.")
  else if cfg.output.isPrefixOf cfg.source then
    .error (.validationErr "Source directory cannot be under output directory.")
  else
    .ok cfg

/-- Models `Options::new` after CLI parsing: when a TOML file was found (either the
`--config` path or an existing `neur.toml`), merge its options under the CLI
options; otherwise the CLI options are used as parsed (no merge happens). -/
def resolveOptions (cli : Options) (tomlOpts : Option Options) : Options :=
  match tomlOpts with
  | some t => cli.merge t
  | none => cli

/-- Models `Config::parse` for already-deserialized layers: full option resolution
followed by validation. -/
def resolveConfig (cli : Options) (tomlOpts : Option Options) : Except ConfigError Config :=
  tryFromOptions (resolveOptions cli tomlOpts)

/-! ### Generator (`src/generator.rs`)

`Env` abstracts the external transformation libraries at exactly the call
boundaries the generator uses.  The internal stylesheet representation
(`StyleSheet`) is abstract and modelled as `String`. -/

/-- External collaborators.  `teraRender` additionally receives the
autoescape suffix list currently configured on the engine, since the code
mutates that configuration around one call. -/
structure Env where
  cssParse : String → Except String String
  cssMinify : String → Except String String
  cssPrint : Bool → String → Except String String
  teraRender : List String → String → Ctx → Except String String
  oneOff : String → Ctx → Bool → Except String String
  markdownToHtml : String → String
  fmParse : String → Except String (List (String × Value))
  minifyHtml : String → String

/-- Models `GeneratorError`: css and front-matter errors carry the offending file
path; io and tera errors do not. -/
inductive GeneratorError where
  | io : String → GeneratorError
  | tera : String → GeneratorError
  | css : List String → String → GeneratorError
  | frontmatter : List String → String → GeneratorError
deriving DecidableEq

/-- A recorded filesystem effect of the run. -/
inductive FsAction where
  | createDir : List String → FsAction
  | write : List String → String → FsAction
  | copy : List String → List String → FsAction
deriving DecidableEq

/-- Generator state: the configuration, the layout registry (`templates`),
and the tera autoescape suffix configuration (mutated by `markdown`). -/
structure Generator where
  config : Config
  templates : List (List String)
  autoescape : List String
deriving DecidableEq

/-- Tera default autoescape suffixes, restored by `markdown` after a layout
render (`autoescape_on(vec![".html", ".htm", ".xml"])`). -/
def teraDefaultAutoescape : List String := [".html", ".htm", ".xml"]

/-- Models `Generator::new` (the tera pre-scan of the source glob is part of
`Env.teraRender`). -/
def Generator.new (config : Config) : Generator :=
  { config := config, templates := [], autoescape := teraDefaultAutoescape }

/-- Models `Generator::dest`: `output.join(path.components().skip(1))` — the
output root followed by the input path MINUS ITS FIRST COMPONENT. -/
def Generator.dest (g : Generator) (path : List String) : List String :=
  g.config.output ++ path.drop 1

/-- Models `Generator::css`: parse, structurally minify, and print the stylesheet,
attaching the file path to any stage failure, then write to the mirrored
path. -/
def Generator.css (env : Env) (g : Generator) (path : List String) (contents : String) :
    Except GeneratorError (Generator × List FsAction) := do
  let styles ← (env.cssParse contents).mapError (fun e => .css path e)
  let styles ← (env.cssMinify styles).mapError (fun e => .css path e)
  let output ← (env.cssPrint g.config.minify styles).mapError (fun e => .css path e)
  pure (g, [.write (g.dest path) output])

/-- Models `Generator::html`: a file name with exactly one leading underscore is
escaped (no output; `_template.html` registers its parent directory);
otherwise render the template named by the path minus its first component
with an empty context and write to the mirrored path, compacted when
`minify` is set. -/
def Generator.html (env : Env) (g : Generator) (path : List String) (_contents : String) :
    Except GeneratorError (Generator × List FsAction) :=
  let filename := filenameOf path
  let isEscaped := strStartsWith filename "_" && !strStartsWith filename "__"
  if !isEscaped then do
    let trimmedPath := path.drop 1
    let rendered ← (env.teraRender g.autoescape (pathStr trimmedPath) Ctx.empty).mapError .tera
    if g.config.minify then
      pure (g, [.write (g.dest path) (env.minifyHtml rendered)])
    else
      pure (g, [.write (g.dest path) rendered])
  else if filename = "_template.html" then
    pure ({ g with templates := g.templates ++ [path.dropLast] }, [])
  else
    pure (g, [])

/-- The built-in fallback layout.  Modelled from the spec: the file
`src/generator/default.html` pulled in by `include_str!` is not present in
the sources; per the spec it is a built-in minimal template that just emits
the `content` value. -/
def defaultTemplate : String := "\x7b\x7b content \x7d\x7d"

/-- The rendering context assembled by `Generator::markdown` (lines
136-148): the rendered body under `content` FIRST, then every front-matter
pair, with front-matter parse failures carrying the file path. -/
def Generator.mdContext (env : Env) (path : List String) (contents : String) :
    Except GeneratorError Ctx := do
  let ctx := Ctx.insert Ctx.empty "content" (.str (env.markdownToHtml contents))
  let props ← (env.fmParse contents).mapError (fun e => .frontmatter path e)
  pure (props.foldl (fun c kv => Ctx.insert c kv.1 kv.2) ctx)

/-- Models `Generator::markdown`: build the context; if the registry contains the
EXACT PARENT directory, render `parent/_template.html` (path minus first
component) with autoescaping switched off for the render and restored to
the default suffixes afterwards; otherwise render the built-in fallback
one-off with autoescape off.  Write to the mirrored path with the extension
replaced by `html`, compacted when `minify` is set. -/
def Generator.markdown (env : Env) (g : Generator) (path : List String) (contents : String) :
    Except GeneratorError (Generator × List FsAction) := do
  let context ← Generator.mdContext env path contents
  let (g, rendered) ←
    if g.templates.contains path.dropLast then do
      let trimmedPath := (path.dropLast ++ ["_template.html"]).drop 1
      let g1 : Generator := { g with autoescape := [] }
      let rendered ←
        (env.teraRender g1.autoescape (pathStr trimmedPath) context).mapError GeneratorError.tera
      let g2 : Generator := { g1 with autoescape := teraDefaultAutoescape }
      pure (g2, rendered)
    else do
      let rendered ← (env.oneOff defaultTemplate context false).mapError GeneratorError.tera
      pure (g, rendered)
  let dst := withExtension (g.dest path) "html"
  if g.config.minify then
    pure (g, [.write dst (env.minifyHtml rendered)])
  else
    pure (g, [.write dst rendered])

/-- Models `Generator::file`: dispatch on the extension (no extension reads as the
empty string, matching is case-sensitive); unknown extensions are copied
byte-for-byte to the mirrored path. -/
def Generator.file (env : Env) (g : Generator) (path : List String) (contents : String) :
    Except GeneratorError (Generator × List FsAction) :=
  let extension := (pathExtension path).getD ""
  if extension = "css" then g.css env path contents
  else if extension = "html" then g.html env path contents
  else if extension = "md" then g.markdown env path contents
  else pure (g, [.copy path (g.dest path)])

/-! ### The directory walk

The source tree is modelled in memory; the walk mirrors
`Generator::directory`: create the mirrored directory, then process the
entries in order, propagating the first failure.  Because real on-disk
output stays on disk, the walk returns the trace of actions performed
BEFORE the failure together with the optional error that stopped it. -/

/-- A directory entry: a regular file with contents, or a subdirectory.
Other entry kinds are skipped by the code and are not modelled. -/
inductive Entry where
  | file : String → String → Entry
  | dir : String → List Entry → Entry

mutual

/-- Process one entry of a directory at `path` (the body of the loop in
`Generator::directory`): a file is dispatched, a subdirectory is walked
recursively (its mirrored directory is created first). -/
def processEntry (env : Env) (g : Generator) (path : List String) :
    Entry → Generator × List FsAction × Option GeneratorError
  | .file name contents =>
    match Generator.file env g (path ++ [name]) contents with
    | .error e => (g, [], some e)
    | .ok (g1, acts) => (g1, acts, none)
  | .dir name sub =>
    let r := walkEntries env g (path ++ [name]) sub
    (r.1, .createDir (g.dest (path ++ [name])) :: r.2.1, r.2.2)

/-- The entry loop of `Generator::directory`: process entries left to
right, stopping at the first failure. -/
def walkEntries (env : Env) (g : Generator) (path : List String) :
    List Entry → Generator × List FsAction × Option GeneratorError
  | [] => (g, [], none)
  | e :: rest =>
    let r := processEntry env g path e
    match r.2.2 with
    | some err => (r.1, r.2.1, some err)
    | none =>
      let r2 := walkEntries env r.1 path rest
      (r2.1, r.2.1 ++ r2.2.1, r2.2.2)

end

/-- Models `Generator::run`: walk the source root (whose mirrored directory is
created first). -/
def Generator.run (env : Env) (g : Generator) (tree : List Entry) :
    Generator × List FsAction × Option GeneratorError :=
  let r := walkEntries env g g.config.source tree
  (r.1, .createDir (g.dest g.config.source) :: r.2.1, r.2.2)

/-- The error reported by a `main` run (`src/main.rs`): configuration
errors and generation errors are distinguished phases. -/
inductive MainError where
  | config : ConfigError → MainError
  | generator : GeneratorError → MainError
deriving DecidableEq

/-- Models `main`: parse the configuration; on failure abort with a config error
before constructing or running the generator (so with an empty action
trace); otherwise run the generator on the source tree. -/
def mainRun (cli : Options) (tomlOpts : Option Options) (env : Env) (tree : List Entry) :
    List FsAction × Option MainError :=
  match resolveConfig cli tomlOpts with
  | .error e => ([], some (.config e))
  | .ok cfg =>
    let r := Generator.run env (Generator.new cfg) tree
    (r.2.1, r.2.2.map .generator)

/-! ### Concrete instances used to evaluate the model -/

/-- A simple total environment: every transform succeeds and tags its
input, so the provenance of each output byte string is visible. -/
def envId : Env :=
  { cssParse := fun s => .ok s
    cssMinify := fun s => .ok s
    cssPrint := fun _ s => .ok s
    teraRender := fun _ name _ => .ok ("R:" ++ name)
    oneOff := fun _ _ _ => .ok "FALLBACK"
    markdownToHtml := fun s => "B:" ++ s
    fmParse := fun _ => .ok []
    minifyHtml := fun s => "M:" ++ s }

/-- Environment distinguishing a layout render from a fallback render. -/
def envLayout : Env :=
  { envId with
    teraRender := fun _ _ _ => .ok "LAYOUT"
    oneOff := fun _ _ _ => .ok "FALLBACK" }

/-- Environment whose front matter declares a key named `content`. -/
def envFm : Env :=
  { envId with fmParse := fun _ => .ok [("content", .str "FM")] }

/-- Environment whose template render reports whether the engine had any
autoescape suffixes configured at the time of the render. -/
def envAe : Env :=
  { envId with
    teraRender := fun ae _ _ => .ok (if ae.isEmpty then "AE_OFF" else "AE_ON") }

/-- Environment whose stylesheet parser always fails. -/
def envCssFail : Env :=
  { envId with cssParse := fun _ => .error "bad css" }

/-- Environment whose front-matter parser always fails. -/
def envFmFail : Env :=
  { envId with fmParse := fun _ => .error "bad front matter" }

/-- Environment whose front matter declares a single `title` key. -/
def envTitle : Env :=
  { envId with fmParse := fun _ => .ok [("title", Value.str "Hi")] }

/-- A generator over a two-component source root. -/
def gAB : Generator :=
  Generator.new { source := ["a", "b"], output := ["out"], minify := false }

/-- A fresh generator over the single-component source root `src`. -/
def gSrc : Generator :=
  Generator.new { source := ["src"], output := ["out"], minify := false }

/-- The same generator with the directory `src` in the layout registry. -/
def gT : Generator := { gSrc with templates := [["src"]] }

/-! ### Helper lemmas -/

/-- Reduce a bind on a successful `Except`. -/
theorem bindOk {ε α β : Type} (a : α) (f : α → Except ε β) :
    (Except.ok a : Except ε α) >>= f = f a := rfl

/-- Reduce a bind on a failed `Except`. -/
theorem bindErr {ε α β : Type} (e : ε) (f : α → Except ε β) :
    (Except.error e : Except ε α) >>= f = Except.error e := rfl

/-- Reduce a bind on a pure `Except`. -/
theorem bindPure {ε α β : Type} (a : α) (f : α → Except ε β) :
    (pure a : Except ε α) >>= f = f a := rfl

/-- Reduce `mapError` on a successful `Except`. -/
theorem mapErrorOk {ε ε2 α : Type} (a : α) (f : ε → ε2) :
    (Except.ok a : Except ε α).mapError f = .ok a := rfl

/-- Reduce `mapError` on a failed `Except`. -/
theorem mapErrorErr {ε ε2 α : Type} (e : ε) (f : ε → ε2) :
    (Except.error e : Except ε α).mapError f = .error (f e) := rfl

/-- Reduce `map` on a successful `Except`. -/
theorem mapOk {ε α β : Type} (a : α) (f : α → β) :
    (Except.ok a : Except ε α).map f = .ok (f a) := rfl

/-- Reduce `map` on a failed `Except`. -/
theorem mapErr {ε α β : Type} (e : ε) (f : α → β) :
    (Except.error e : Except ε α).map f = .error e := rfl

/-- Context lookup after an insertion: the inserted binding shadows any
earlier one for the same key. -/
theorem Ctx.lookup_insert (c : Ctx) (k key : String) (v : Value) :
    (c.insert k v).lookup key = if key = k then some v else c.lookup key := rfl

/-- Folding front-matter insertions leaves absent keys untouched. -/
theorem Ctx.lookup_foldl_of_not_mem (props : List (String × Value)) (c : Ctx) (k : String)
    (h : k ∉ props.map Prod.fst) :
    (props.foldl (fun c kv => Ctx.insert c kv.1 kv.2) c).lookup k = c.lookup k := by
  induction props generalizing c with
  | nil => rfl
  | cons kv rest ih =>
    simp only [List.map_cons, List.mem_cons, not_or] at h
    simp only [List.foldl_cons]
    rw [ih _ h.2, Ctx.lookup_insert, if_neg h.1]

/-- Folding front-matter insertions binds each (unique) key to its value. -/
theorem Ctx.lookup_foldl_of_mem (props : List (String × Value)) (c : Ctx) (k : String)
    (v : Value) (hnd : (props.map Prod.fst).Nodup) (hmem : (k, v) ∈ props) :
    (props.foldl (fun c kv => Ctx.insert c kv.1 kv.2) c).lookup k = some v := by
  induction props generalizing c with
  | nil => simp at hmem
  | cons kv rest ih =>
    simp only [List.map_cons, List.nodup_cons] at hnd
    simp only [List.foldl_cons]
    rcases List.mem_cons.mp hmem with heq | hrest
    · have hk : kv.1 = k := by rw [← heq]
      have hnot : k ∉ rest.map Prod.fst := by rw [← hk]; exact hnd.1
      rw [Ctx.lookup_foldl_of_not_mem rest _ k hnot, ← heq, Ctx.lookup_insert, if_pos rfl]
    · exact ih _ hnd.2 hrest

/-- Evaluates `Generator.markdown` in the layout branch: with the context built, a
registered exact parent directory leads to one render of
`parent/_template.html` (path minus first component) with the autoescape
configuration emptied, the restored default configuration in the resulting
state, and one write to the mirrored path with extension `html`. -/
theorem Generator.markdown_layout_eq (env : Env) (g : Generator) (path : List String)
    (contents : String) (context : Ctx)
    (hctx : Generator.mdContext env path contents = .ok context)
    (hl : g.templates.contains path.dropLast = true) :
    Generator.markdown env g path contents
      = ((env.teraRender [] (pathStr ((path.dropLast ++ ["_template.html"]).drop 1))
            context).mapError GeneratorError.tera).map
          (fun rendered =>
            ({ g with autoescape := teraDefaultAutoescape },
             [FsAction.write (withExtension (g.dest path) "html")
                (if g.config.minify then env.minifyHtml rendered else rendered)])) := by
  unfold Generator.markdown
  rw [hctx, bindOk, if_pos hl]
  dsimp only
  cases hr : env.teraRender [] (pathStr ((path.dropLast ++ ["_template.html"]).drop 1)) context with
  | error e => rw [mapErrorErr, mapErr, bindErr]
  | ok rendered =>
    rw [mapErrorOk, mapOk, bindOk, bindPure]
    dsimp only
    by_cases hm : g.config.minify = true
    · simp only [if_pos hm]; rfl
    · simp only [if_neg hm]; rfl

/-- Evaluates `Generator.markdown` in the fallback branch: with the context built, an
unregistered exact parent directory leads to one one-off render of the
built-in fallback template (autoescape off) and one write to the mirrored
path with extension `html`; the generator state is unchanged. -/
theorem Generator.markdown_fallback_eq (env : Env) (g : Generator) (path : List String)
    (contents : String) (context : Ctx)
    (hctx : Generator.mdContext env path contents = .ok context)
    (hl : g.templates.contains path.dropLast = false) :
    Generator.markdown env g path contents
      = ((env.oneOff defaultTemplate context false).mapError GeneratorError.tera).map
          (fun rendered =>
            (g, [FsAction.write (withExtension (g.dest path) "html")
                (if g.config.minify then env.minifyHtml rendered else rendered)])) := by
  unfold Generator.markdown
  rw [hctx, bindOk, if_neg (by rw [hl]; simp)]
  dsimp only
  cases hr : env.oneOff defaultTemplate context false with
  | error e => rw [mapErrorErr, mapErr, bindErr]
  | ok rendered =>
    rw [mapErrorOk, mapOk, bindOk, bindPure]
    dsimp only
    by_cases hm : g.config.minify = true
    · simp only [if_pos hm]; rfl
    · simp only [if_neg hm]; rfl

/-- The entry loop distributes over list append: a failure in the first
part short-circuits, otherwise the second part continues from the state the
first part reached and the traces concatenate. -/
theorem walkEntries_append (env : Env) (g : Generator) (path : List String)
    (l1 l2 : List Entry) :
    walkEntries env g path (l1 ++ l2)
      = (let r := walkEntries env g path l1
         if r.2.2.isSome then r
         else
           let r2 := walkEntries env r.1 path l2
           (r2.1, r.2.1 ++ r2.2.1, r2.2.2)) := by
  induction l1 generalizing g with
  | nil => simp [walkEntries]
  | cons e rest ih =>
    simp only [List.cons_append, walkEntries]
    cases hpe : (processEntry env g path e).2.2 with
    | some err => simp [hpe]
    | none =>
      simp only [hpe, List.append_eq]
      rw [ih]
      rcases hw : walkEntries env (processEntry env g path e).1 path rest with ⟨g1, a1, err⟩
      cases err <;> simp [hw, List.append_assoc]

/-- Boolean component-prefix test agrees with the prefix relation. -/
theorem isPrefixOf_iff {α : Type} [DecidableEq α] (l1 l2 : List α) :
    l1.isPrefixOf l2 = true ↔ l1 <+: l2 := by
  induction l1 generalizing l2 with
  | nil => simp [List.isPrefixOf]
  | cons a as ih =>
    cases l2 with
    | nil => simp [List.isPrefixOf]
    | cons b bs =>
      rw [List.isPrefixOf_cons₂, List.cons_prefix_cons]
      simp [Bool.and_eq_true, beq_iff_eq, ih]

/-! ### Claims -/

/-- C1, counterexample.  The claim says the output path of every processed
file is the output root joined with the path of the file RELATIVE TO THE SOURCE
ROOT.  With the source root `a/b` (two components), the file `a/b/pic.png`
(relative path `pic.png`) is copied to `out/b/pic.png`, not to the claimed
`out/pic.png`: `dest` drops exactly one leading component, not the source
prefix. -/
theorem C1_counterexample :
    (Generator.run envId gAB [Entry.file "pic.png" "x"]).2.1
      = [FsAction.createDir ["out", "b"],
         FsAction.copy ["a", "b", "pic.png"] ["out", "b", "pic.png"]]
  ∧ (Generator.run envId gAB [Entry.file "pic.png" "x"]).2.2 = none
  ∧ (["out", "b", "pic.png"] : List String) ≠ ["out"] ++ ["pic.png"] :=
  ⟨rfl, rfl, by decide⟩

/-- C1, amended: the output path equals the output root joined with the
input path minus its FIRST component; this coincides with the path relative
to the source root exactly when the source root is a single component; and
the single write of a content document additionally replaces the extension of
the mirrored path by `html`. -/
theorem C1_amended (env : Env) (g : Generator) (path rel : List String) (s : String)
    (contents : String) (g2 : Generator) (acts : List FsAction) :
    g.dest path = g.config.output ++ path.drop 1
  ∧ (g.config.source = [s] → g.dest (g.config.source ++ rel) = g.config.output ++ rel)
  ∧ (Generator.markdown env g path contents = .ok (g2, acts) →
      ∃ out, acts = [FsAction.write (withExtension (g.dest path) "html") out]) := by
  refine ⟨rfl, ?_, ?_⟩
  · intro hs
    unfold Generator.dest
    rw [hs, List.singleton_append, List.drop_one, List.tail_cons]
  · intro h
    cases hctx : Generator.mdContext env path contents with
    | error e =>
      unfold Generator.markdown at h
      rw [hctx, bindErr] at h
      simp at h
    | ok context =>
      by_cases hl : g.templates.contains path.dropLast = true
      · rw [Generator.markdown_layout_eq env g path contents context hctx hl] at h
        cases hr : env.teraRender []
            (pathStr ((path.dropLast ++ ["_template.html"]).drop 1)) context with
        | error e => rw [hr, mapErrorErr, mapErr] at h; simp at h
        | ok rendered =>
          rw [hr, mapErrorOk, mapOk] at h
          simp only [Except.ok.injEq, Prod.mk.injEq] at h
          exact ⟨_, h.2.symm⟩
      · rw [Generator.markdown_fallback_eq env g path contents context hctx
            (by simpa using hl)] at h
        cases hr : env.oneOff defaultTemplate context false with
        | error e => rw [hr, mapErrorErr, mapErr] at h; simp at h
        | ok rendered =>
          rw [hr, mapErrorOk, mapOk] at h
          simp only [Except.ok.injEq, Prod.mk.injEq] at h
          exact ⟨_, h.2.symm⟩

/-- C1, witness for the amended claim at a concrete input: a markdown file
`src/post.md` under the single-component source root `src` is written to
`out/post.html`. -/
theorem C1_witness :
    gSrc.dest ["src", "post.md"] = gSrc.config.output ++ ["src", "post.md"].drop 1
  ∧ gSrc.config.source = ["src"]
  ∧ gSrc.dest (gSrc.config.source ++ ["post.md"]) = gSrc.config.output ++ ["post.md"]
  ∧ ∃ out, [FsAction.write ["out", "post.html"] "FALLBACK"]
      = [FsAction.write (withExtension (gSrc.dest ["src", "post.md"]) "html") out] := by
  have h := C1_amended envId gSrc ["src", "post.md"] ["post.md"] "src" "body" gSrc
    [FsAction.write ["out", "post.html"] "FALLBACK"]
  exact ⟨h.1, rfl, h.2.1 rfl, h.2.2 rfl⟩

/-- C6: a regular file whose extension (case-sensitively) is none of `css`,
`html`, `md` — a missing extension counting as the empty string — is
dispatched to a byte-for-byte copy to the mirrored output path; it is never
skipped and never transformed (`fs::copy` of the source bytes is the only
action). -/
theorem C6_unknown_extension_copied (env : Env) (g : Generator) (path : List String)
    (contents : String)
    (h : ((pathExtension path).getD "") ∉ (["css", "html", "md"] : List String)) :
    Generator.file env g path contents = .ok (g, [FsAction.copy path (g.dest path)]) := by
  simp only [List.mem_cons, List.not_mem_nil, or_false, not_or] at h
  unfold Generator.file
  rw [if_neg h.1, if_neg h.2.1, if_neg h.2.2]
  rfl

/-- C6, witness: `src/logo.CSS` (uppercase extension, so not the stylesheet
extension) is copied verbatim to `out/logo.CSS`. -/
theorem C6_witness :
    Generator.file envId gSrc ["src", "logo.CSS"] "x"
      = .ok (gSrc, [FsAction.copy ["src", "logo.CSS"] ["out", "logo.CSS"]]) := by
  have h := C6_unknown_extension_copied envId gSrc ["src", "logo.CSS"] "x" (by decide)
  exact h

/-- C7: whenever the resolved output directory is nested under the resolved
source directory or vice versa (component-prefix, after defaults), the
configuration fails with a validation error, and the run aborts with that
error before any generation action (no directory created, no file read,
written or copied). -/
theorem C7_validation_aborts (cli : Options) (tomlOpts : Option Options) (env : Env)
    (tree : List Entry)
    (hnest : (resolveOptions cli tomlOpts).source.getD ["src"] <+:
               (resolveOptions cli tomlOpts).output.getD ["dist"]
           ∨ (resolveOptions cli tomlOpts).output.getD ["dist"] <+:
               (resolveOptions cli tomlOpts).source.getD ["src"]) :
    (∃ msg, resolveConfig cli tomlOpts = .error (.validationErr msg))
  ∧ (mainRun cli tomlOpts env tree).1 = []
  ∧ ∃ msg, (mainRun cli tomlOpts env tree).2 = some (.config (.validationErr msg)) := by
  have key : ∃ msg, resolveConfig cli tomlOpts = .error (.validationErr msg) := by
    unfold resolveConfig tryFromOptions
    by_cases h1 : ((resolveOptions cli tomlOpts).source.getD ["src"]).isPrefixOf
        ((resolveOptions cli tomlOpts).output.getD ["dist"]) = true
    · rw [if_pos h1]
      exact ⟨_, rfl⟩
    · have h2 : ((resolveOptions cli tomlOpts).output.getD ["dist"]).isPrefixOf
          ((resolveOptions cli tomlOpts).source.getD ["src"]) = true := by
        rcases hnest with h | h
        · exact absurd ((isPrefixOf_iff _ _).mpr h) h1
        · exact (isPrefixOf_iff _ _).mpr h
      rw [if_neg h1, if_pos h2]
      exact ⟨_, rfl⟩
  obtain ⟨msg, hmsg⟩ := key
  refine ⟨⟨msg, hmsg⟩, ?_, ?_⟩
  · unfold mainRun
    rw [hmsg]
  · unfold mainRun
    rw [hmsg]
    exact ⟨msg, rfl⟩

/-- C7, witness: the spec scenario `source=dist_input`,
`output=dist_input/out` fails validation and produces no generation
action. -/
theorem C7_witness :
    (∃ msg, resolveConfig
        { source := some ["dist_input"], output := some ["dist_input", "out"],
          minify := none, minifyCli := none } none = .error (.validationErr msg))
  ∧ (mainRun
        { source := some ["dist_input"], output := some ["dist_input", "out"],
          minify := none, minifyCli := none } none envId []).1 = []
  ∧ ∃ msg, (mainRun
        { source := some ["dist_input"], output := some ["dist_input", "out"],
          minify := none, minifyCli := none } none envId []).2
      = some (.config (.validationErr msg)) :=
  C7_validation_aborts _ none envId [] (Or.inl ⟨["out"], rfl⟩)

/-- C10: the behaviour of the code at the failing input of the claim.  Passing the
`minify` flag on the command line without a value while NO TOML file is
present resolves `minify` to `false` (first conjunct): `Options::new` only
calls `merge` — the sole place `_minify_cli` is consulted — when a TOML
file is loaded so the flag is silently dropped; with a TOML file present
(even an empty one) the identical command line resolves `minify` to `true`
(second conjunct), which is the behaviour the claim describes. -/
theorem C10_minify_flag_dropped :
    resolveConfig
        { source := none, output := none, minify := none, minifyCli := some none } none
      = .ok { source := ["src"], output := ["dist"], minify := false }
  ∧ resolveConfig
        { source := none, output := none, minify := none, minifyCli := some none }
        (some { source := none, output := none, minify := none, minifyCli := none })
      = .ok { source := ["src"], output := ["dist"], minify := true } :=
  ⟨rfl, rfl⟩

/-- Injectivity of the success constructor. -/
theorem okInj {ε α : Type} {a b : α} (h : (Except.ok a : Except ε α) = .ok b) : a = b :=
  Except.ok.inj h

/-- C2: for a markup file, a name with exactly one leading underscore
produces no output action — registering the parent directory exactly when
the name is `_template.html` — while a name with no leading underscore or
two or more leading underscores produces exactly one write to the mirrored
path, containing the template-rendered content for the template named by
the path minus its first component, passed through the HTML compactor when
`minify` is set. -/
theorem C2_markup (env : Env) (g : Generator) (path : List String) (contents : String) :
    (strStartsWith (filenameOf path) "_" = true → strStartsWith (filenameOf path) "__" = false →
      Generator.html env g path contents
        = .ok ((if filenameOf path = "_template.html"
                 then { g with templates := g.templates ++ [path.dropLast] } else g), []))
  ∧ ((strStartsWith (filenameOf path) "_" = false ∨ strStartsWith (filenameOf path) "__" = true) →
      Generator.html env g path contents
        = ((env.teraRender g.autoescape (pathStr (path.drop 1)) Ctx.empty).mapError
              GeneratorError.tera).map
            (fun rendered =>
              (g, [FsAction.write (g.dest path)
                    (if g.config.minify then env.minifyHtml rendered else rendered)]))) := by
  constructor
  · intro h1 h2
    unfold Generator.html
    have he : (strStartsWith (filenameOf path) "_" && !strStartsWith (filenameOf path) "__") = true := by
      rw [h1, h2]; rfl
    rw [if_neg (by rw [he]; simp)]
    by_cases ht : filenameOf path = "_template.html"
    · rw [if_pos ht, if_pos ht]
      rfl
    · rw [if_neg ht, if_neg ht]
      rfl
  · intro h
    unfold Generator.html
    have he : (!(strStartsWith (filenameOf path) "_" && !strStartsWith (filenameOf path) "__")) = true := by
      rcases h with h | h <;> rw [h] <;> simp
    rw [if_pos he]
    dsimp only
    cases hr : env.teraRender g.autoescape (pathStr (path.drop 1)) Ctx.empty with
    | error e => rw [mapErrorErr, mapErr, bindErr]
    | ok rendered =>
      rw [mapErrorOk, mapOk, bindOk]
      by_cases hm : g.config.minify = true
      · simp only [if_pos hm]; rfl
      · simp only [if_neg hm]; rfl

/-- C2, witness: `src/_template.html` is escaped and registers `src`;
`src/page.html` is rendered and written to `out/page.html`. -/
theorem C2_witness :
    Generator.html envId gSrc ["src", "_template.html"] ""
      = .ok ({ gSrc with templates := gSrc.templates ++ [["src"]] }, [])
  ∧ Generator.html envId gSrc ["src", "page.html"] ""
      = .ok (gSrc, [FsAction.write ["out", "page.html"] "R:page.html"]) := by
  constructor
  · have h := (C2_markup envId gSrc ["src", "_template.html"] "").1 (by decide) (by decide)
    rw [h]
    rfl
  · have h := (C2_markup envId gSrc ["src", "page.html"] "").2 (Or.inl (by decide))
    rw [h]
    rfl

/-- C3, counterexample.  The claim says a document is rendered through the
registered layout of its parent directory OR of the nearest already
discovered ancestor directory.  With `src` registered (the nearest
discovered ancestor of `src/sub/doc.md`) but `src/sub` (the parent) not
registered, the code renders the FALLBACK template — in this environment
the layout render would have produced `LAYOUT`, and the output written is
`FALLBACK` instead: only the exact parent directory is consulted. -/
theorem C3_counterexample :
    (["src"] : List String) ∈ gT.templates
  ∧ (["src", "sub", "doc.md"] : List String).dropLast ∉ gT.templates
  ∧ (Generator.markdown envLayout gT ["src", "sub", "doc.md"] "body").map (fun r => r.2)
      = .ok [FsAction.write ["out", "sub", "doc.html"] "FALLBACK"]
  ∧ (Generator.mdContext envLayout ["src", "sub", "doc.md"] "body").map
        (fun c => envLayout.teraRender []
          (pathStr (((["src", "sub", "doc.md"] : List String).dropLast
            ++ ["_template.html"]).drop 1)) c)
      = .ok (.ok "LAYOUT")
  ∧ ("FALLBACK" : String) ≠ "LAYOUT" :=
  ⟨by decide, by decide, rfl, rfl, by decide⟩

/-- C3, amended: the layout lookup consults only the EXACT
parent directory of the document.  If the parent is registered the document is rendered
through `parent/_template.html`; otherwise — even when an ancestor
directory is registered — it is rendered with the built-in minimal fallback
template (which just emits the `content` value). -/
theorem C3_amended (env : Env) (g : Generator) (path : List String) (contents : String)
    (context : Ctx) (hctx : Generator.mdContext env path contents = .ok context) :
    (g.templates.contains path.dropLast = true →
      Generator.markdown env g path contents
        = ((env.teraRender [] (pathStr ((path.dropLast ++ ["_template.html"]).drop 1))
              context).mapError GeneratorError.tera).map
            (fun rendered =>
              ({ g with autoescape := teraDefaultAutoescape },
               [FsAction.write (withExtension (g.dest path) "html")
                  (if g.config.minify then env.minifyHtml rendered else rendered)])))
  ∧ (g.templates.contains path.dropLast = false →
      Generator.markdown env g path contents
        = ((env.oneOff defaultTemplate context false).mapError GeneratorError.tera).map
            (fun rendered =>
              (g, [FsAction.write (withExtension (g.dest path) "html")
                  (if g.config.minify then env.minifyHtml rendered else rendered)]))) :=
  ⟨fun hl => Generator.markdown_layout_eq env g path contents context hctx hl,
   fun hl => Generator.markdown_fallback_eq env g path contents context hctx hl⟩

/-- C3, witness: `src/doc.md` with registered parent `src` renders through
the layout; the same document without any registration renders through the
fallback. -/
theorem C3_witness :
    Generator.markdown envLayout gT ["src", "doc.md"] "body"
      = .ok (gT, [FsAction.write ["out", "doc.html"] "LAYOUT"])
  ∧ Generator.markdown envLayout gSrc ["src", "doc.md"] "body"
      = .ok (gSrc, [FsAction.write ["out", "doc.html"] "FALLBACK"]) := by
  constructor
  · have h := (C3_amended envLayout gT ["src", "doc.md"] "body"
      [("content", Value.str "B:body")] rfl).1 (by decide)
    rw [h]
    rfl
  · have h := (C3_amended envLayout gSrc ["src", "doc.md"] "body"
      [("content", Value.str "B:body")] rfl).2 (by decide)
    rw [h]
    rfl

/-- C4, counterexample.  The claim says that on a collision the reserved
`content` value (the rendered body) wins.  With front matter declaring
`content = "FM"` and the rendered body `"B:body"`, the assembled context
binds `content` to the front-matter value `"FM"`, not to the rendered
body: front matter is inserted AFTER the body and overwrites it. -/
theorem C4_counterexample :
    (Generator.mdContext envFm ["src", "doc.md"] "body").map (fun c => c.lookup "content")
      = .ok (some (Value.str "FM"))
  ∧ envFm.markdownToHtml "body" = "B:body"
  ∧ (Value.str "FM" : Value) ≠ Value.str "B:body" :=
  ⟨rfl, rfl, by decide⟩

/-- C4, amended: the rendering context binds every front-matter key to its
front-matter value, and binds the reserved `content` key to the rendered
body exactly when the front matter does not itself declare a `content` key;
on a collision the front-matter value wins because it is inserted after the
body. -/
theorem C4_amended (env : Env) (path : List String) (contents : String)
    (props : List (String × Value)) (context : Ctx)
    (hfm : env.fmParse contents = .ok props)
    (hnd : (props.map Prod.fst).Nodup)
    (hctx : Generator.mdContext env path contents = .ok context) :
    ("content" ∉ props.map Prod.fst →
        context.lookup "content" = some (.str (env.markdownToHtml contents)))
  ∧ ∀ k v, (k, v) ∈ props → context.lookup k = some v := by
  have hc : context = props.foldl (fun c kv => Ctx.insert c kv.1 kv.2)
      (Ctx.insert Ctx.empty "content" (.str (env.markdownToHtml contents))) := by
    unfold Generator.mdContext at hctx
    rw [hfm, mapErrorOk, bindOk] at hctx
    exact (okInj hctx).symm
  constructor
  · intro hnotin
    rw [hc, Ctx.lookup_foldl_of_not_mem _ _ _ hnotin, Ctx.lookup_insert, if_pos rfl]
  · intro k v hmem
    rw [hc]
    exact Ctx.lookup_foldl_of_mem props _ k v hnd hmem

/-- C4, witness: with front matter `title = "Hi"` and body rendering to
`B:body`, the context binds `content` to the body and `title` to `Hi`. -/
theorem C4_witness :
    (([("title", Value.str "Hi"), ("content", Value.str "B:body")] : Ctx).lookup "content"
      = some (.str "B:body"))
  ∧ (([("title", Value.str "Hi"), ("content", Value.str "B:body")] : Ctx).lookup "title"
      = some (.str "Hi")) := by
  have h := C4_amended envTitle ["src", "doc.md"] "body" [("title", Value.str "Hi")]
    [("title", Value.str "Hi"), ("content", Value.str "B:body")] rfl (by decide) rfl
  exact ⟨h.1 (by decide), h.2 "title" (Value.str "Hi") (by decide)⟩

/-- C5, counterexample.  The claim says that during the single layout
render autoescaping is disabled for the `content` field ONLY, remaining
enabled for all other values.  In an environment whose render reports
whether the engine had any autoescape suffixes configured, the layout
render of `src/doc.md` reports `AE_OFF`: the code calls
`autoescape_on(vec![])`, disabling autoescaping for EVERY value of the
render, not only for `content` (with the normal configuration the same
render would report `AE_ON`). -/
theorem C5_counterexample :
    Generator.markdown envAe gT ["src", "doc.md"] "body"
      = .ok (gT, [FsAction.write ["out", "doc.html"] "AE_OFF"])
  ∧ envAe.teraRender teraDefaultAutoescape (pathStr ["_template.html"])
        [("content", Value.str "B:body")] = .ok "AE_ON"
  ∧ ("AE_OFF" : String) ≠ "AE_ON" :=
  ⟨rfl, rfl, by decide⟩

/-- C5, amended: during the single layout render of a content document the
autoescape configuration of the engine is emptied: autoescaping is disabled for
ALL values, not only `content` — and after a successful layout render it is
restored to the default suffix list, so subsequent markup renders (which
never change the configuration) run with autoescaping on; the fallback
branch leaves the generator state unchanged. -/
theorem C5_amended (env : Env) (g : Generator) (path : List String) (contents : String)
    (g2 : Generator) (acts : List FsAction)
    (h : Generator.markdown env g path contents = .ok (g2, acts)) :
    (g.templates.contains path.dropLast = true →
        g2.autoescape = teraDefaultAutoescape
      ∧ ∃ context rendered,
          Generator.mdContext env path contents = .ok context
        ∧ env.teraRender [] (pathStr ((path.dropLast ++ ["_template.html"]).drop 1)) context
            = .ok rendered)
  ∧ (g.templates.contains path.dropLast = false → g2 = g)
  ∧ ∀ (env2 : Env) (g3 : Generator) (p : List String) (c : String) (g4 : Generator)
      (acts2 : List FsAction),
      Generator.html env2 g3 p c = .ok (g4, acts2) → g4.autoescape = g3.autoescape := by
  refine ⟨?_, ?_, ?_⟩
  · intro hl
    cases hctx : Generator.mdContext env path contents with
    | error e =>
      unfold Generator.markdown at h
      rw [hctx, bindErr] at h
      exact absurd h (by simp)
    | ok context =>
      rw [Generator.markdown_layout_eq env g path contents context hctx hl] at h
      cases hr : env.teraRender []
          (pathStr ((path.dropLast ++ ["_template.html"]).drop 1)) context with
      | error e => rw [hr, mapErrorErr, mapErr] at h; exact absurd h (by simp)
      | ok rendered =>
        rw [hr, mapErrorOk, mapOk] at h
        have hfst : ({ g with autoescape := teraDefaultAutoescape } : Generator) = g2 :=
          congrArg Prod.fst (okInj h)
        refine ⟨?_, context, rendered, rfl, hr⟩
        rw [← hfst]
  · intro hl
    cases hctx : Generator.mdContext env path contents with
    | error e =>
      unfold Generator.markdown at h
      rw [hctx, bindErr] at h
      exact absurd h (by simp)
    | ok context =>
      rw [Generator.markdown_fallback_eq env g path contents context hctx hl] at h
      cases hr : env.oneOff defaultTemplate context false with
      | error e => rw [hr, mapErrorErr, mapErr] at h; exact absurd h (by simp)
      | ok rendered =>
        rw [hr, mapErrorOk, mapOk] at h
        have hfst : g = g2 := congrArg Prod.fst (okInj h)
        exact hfst.symm
  · intro env2 g3 p c g4 acts2 hh
    unfold Generator.html at hh
    by_cases hb : (!(strStartsWith (filenameOf p) "_" && !strStartsWith (filenameOf p) "__")) = true
    · rw [if_pos hb] at hh
      dsimp only at hh
      cases hr : env2.teraRender g3.autoescape (pathStr (p.drop 1)) Ctx.empty with
      | error e => rw [hr, mapErrorErr, bindErr] at hh; exact absurd hh (by simp)
      | ok rendered =>
        rw [hr, mapErrorOk, bindOk] at hh
        by_cases hm : g3.config.minify = true
        · rw [if_pos hm] at hh
          have hfst : g3 = g4 := congrArg Prod.fst (okInj hh)
          rw [← hfst]
        · rw [if_neg hm] at hh
          have hfst : g3 = g4 := congrArg Prod.fst (okInj hh)
          rw [← hfst]
    · rw [if_neg hb] at hh
      by_cases ht : filenameOf p = "_template.html"
      · rw [if_pos ht] at hh
        have hfst : ({ g3 with templates := g3.templates ++ [p.dropLast] } : Generator) = g4 :=
          congrArg Prod.fst (okInj hh)
        rw [← hfst]
      · rw [if_neg ht] at hh
        have hfst : g3 = g4 := congrArg Prod.fst (okInj hh)
        rw [← hfst]

/-- C5, witness: a layout render of `src/doc.md` succeeds with the engine
configuration emptied for the render and restored afterwards. -/
theorem C5_witness :
    (gT.autoescape = teraDefaultAutoescape
      ∧ ∃ context rendered,
          Generator.mdContext envAe ["src", "doc.md"] "body" = .ok context
        ∧ envAe.teraRender []
            (pathStr (((["src", "doc.md"] : List String).dropLast
              ++ ["_template.html"]).drop 1)) context = .ok rendered)
  ∧ (gSrc = gSrc)
  ∧ gSrc.autoescape = gSrc.autoescape := by
  have h := C5_amended envAe gT ["src", "doc.md"] "body" gT
    [FsAction.write ["out", "doc.html"] "AE_OFF"] rfl
  have h2 := C5_amended envAe gSrc ["src", "doc.md"] "body" gSrc
    [FsAction.write ["out", "doc.html"] "FALLBACK"] rfl
  exact ⟨h.1 (by decide), h2.2.1 (by decide), rfl⟩

/-- C8: every stylesheet-stage failure (parse, structural minify, or print)
is reported as a `css` error carrying the offending file path, and every
front-matter parse failure aborts the document transform with a
`frontmatter` error carrying the offending file path — never just the raw
library error. -/
theorem C8_errors_carry_path (env : Env) (g : Generator) (path : List String)
    (contents : String) :
    (∀ e, Generator.css env g path contents = .error e → ∃ msg, e = .css path msg)
  ∧ (∀ msg, env.fmParse contents = .error msg →
      Generator.markdown env g path contents = .error (.frontmatter path msg)) := by
  constructor
  · intro e he
    unfold Generator.css at he
    cases h1 : env.cssParse contents with
    | error m =>
      rw [h1, mapErrorErr, bindErr] at he
      exact ⟨m, (Except.error.inj he).symm⟩
    | ok s1 =>
      rw [h1, mapErrorOk, bindOk] at he
      cases h2 : env.cssMinify s1 with
      | error m =>
        rw [h2, mapErrorErr, bindErr] at he
        exact ⟨m, (Except.error.inj he).symm⟩
      | ok s2 =>
        rw [h2, mapErrorOk, bindOk] at he
        cases h3 : env.cssPrint g.config.minify s2 with
        | error m =>
          rw [h3, mapErrorErr, bindErr] at he
          exact ⟨m, (Except.error.inj he).symm⟩
        | ok out =>
          rw [h3, mapErrorOk, bindOk] at he
          exact Except.noConfusion he
  · intro msg hmsg
    unfold Generator.markdown Generator.mdContext
    rw [hmsg, mapErrorErr, bindErr, bindErr]

/-- C8, witness: a failing stylesheet parse on `src/a.css` yields a css
error naming that path; a failing front-matter parse on `src/doc.md`
aborts the transform with a frontmatter error naming that path. -/
theorem C8_witness :
    (∃ msg, (GeneratorError.css ["src", "a.css"] "bad css")
        = GeneratorError.css ["src", "a.css"] msg)
  ∧ Generator.markdown envFmFail gSrc ["src", "doc.md"] "x"
      = .error (.frontmatter ["src", "doc.md"] "bad front matter") :=
  ⟨(C8_errors_carry_path envCssFail gSrc ["src", "a.css"] "x").1
      (.css ["src", "a.css"] "bad css") rfl,
   (C8_errors_carry_path envFmFail gSrc ["src", "doc.md"] "x").2 "bad front matter" rfl⟩

/-- C9: once a directory entry fails, the walk stops at that entry — the
result is the error of the failing entry, the trace is what the earlier entries
produced plus the own trace of the failing entry, and it does not depend on the
entries after the failing one (no per-file recovery, no later output);
`run` reports exactly the error of the walk. -/
theorem C9_fail_fast (env : Env) (g g1 : Generator) (path : List String)
    (l1 l2 l2f : List Entry) (e : Entry) (a1 : List FsAction)
    (h1 : walkEntries env g path l1 = (g1, a1, none))
    (herr : (processEntry env g1 path e).2.2.isSome = true) :
    walkEntries env g path (l1 ++ e :: l2)
      = ((processEntry env g1 path e).1,
         a1 ++ (processEntry env g1 path e).2.1,
         (processEntry env g1 path e).2.2)
  ∧ walkEntries env g path (l1 ++ e :: l2)
      = walkEntries env g path (l1 ++ e :: l2f)
  ∧ ∀ tree : List Entry,
      (Generator.run env g tree).2.2 = (walkEntries env g g.config.source tree).2.2 := by
  have key : ∀ (l : List Entry), walkEntries env g path (l1 ++ e :: l)
      = ((processEntry env g1 path e).1,
         a1 ++ (processEntry env g1 path e).2.1,
         (processEntry env g1 path e).2.2) := by
    intro l
    obtain ⟨err, herr2⟩ := Option.isSome_iff_exists.mp herr
    rw [walkEntries_append, h1]
    simp [walkEntries, herr2]
  exact ⟨key l2, (key l2).trans (key l2f).symm, fun _ => rfl⟩

/-- C9, witness: after `src/ok.txt` is copied, the failing `src/bad.css`
stops the walk; the trailing `src/later.txt` contributes nothing and the
result is the same as if it were absent. -/
theorem C9_witness :
    walkEntries envCssFail gSrc ["src"]
        ([Entry.file "ok.txt" "x"] ++ Entry.file "bad.css" "y" :: [Entry.file "later.txt" "z"])
      = ((processEntry envCssFail gSrc ["src"] (Entry.file "bad.css" "y")).1,
         [FsAction.copy ["src", "ok.txt"] ["out", "ok.txt"]]
           ++ (processEntry envCssFail gSrc ["src"] (Entry.file "bad.css" "y")).2.1,
         (processEntry envCssFail gSrc ["src"] (Entry.file "bad.css" "y")).2.2)
  ∧ walkEntries envCssFail gSrc ["src"]
        ([Entry.file "ok.txt" "x"] ++ Entry.file "bad.css" "y" :: [Entry.file "later.txt" "z"])
      = walkEntries envCssFail gSrc ["src"]
          ([Entry.file "ok.txt" "x"] ++ Entry.file "bad.css" "y" :: [])
  ∧ ∀ tree : List Entry,
      (Generator.run envCssFail gSrc tree).2.2
        = (walkEntries envCssFail gSrc gSrc.config.source tree).2.2 :=
  C9_fail_fast envCssFail gSrc gSrc ["src"] [Entry.file "ok.txt" "x"]
    [Entry.file "later.txt" "z"] [] (Entry.file "bad.css" "y")
    [FsAction.copy ["src", "ok.txt"] ["out", "ok.txt"]] rfl rfl

end Neur
